import Mathlib

/-!
Verification of the AST-builder and code-generator core of a small
cellular-automaton rule compiler (two Rust source files:
`src/ast/userfunc.rs` and `src/compiler/mod.rs`).

The development shallow-embeds both subsystems:

* the AST builder (`UserFunction` with its three append-only arenas,
  the variable environment, and the two build entry points), and
* the code generator (`Compiler` as an explicit list of basic blocks
  plus a cursor, with the block-building primitives and a small
  interpreter `run` that executes the generated control-flow graph).

Machine integers are embedded as `Nat` bit patterns with explicit
`% 2 ^ w` where wrapping matters.  Fallible operations return
`LangResult` (an `Except` over the error type of the source).
-/

/-! ## Common data model: spans, types, errors -/

/-- A source-code span.  The lexer is outside the two source files; only
the fact that spans are attached to nodes and errors matters here. -/
structure Span where
  lo : Nat
  hi : Nat
deriving DecidableEq, Repr

/-- `Spanned<T>` from the source: a value paired with its source span. -/
structure Spanned (α : Type) where
  span : Span
  inner : α
deriving DecidableEq, Repr

/-- The closed set of value types (`Type` in the source: tagged variant
Integer / CellState / Vector(len), structural equality, copy semantics). -/
inductive Ty where
  | Int
  | CellState
  | Vector (len : Nat)
deriving DecidableEq, Repr

/-- The error kinds of `LangErrorMsg` used by the two source files.
`Unimplemented` stands for the `todo!()` panics of the source
(vector construction, method calls, ranges): no claim exercises them. -/
inductive LangErrorMsg where
  | BecomeInHelperFunction
  | ReturnInTransitionFunction
  | Expected (what : String)
  | ExpectedGot (expected : String) (got : String)
  | InternalError (msg : String)
  | UseOfUninitializedVariable
  | InvalidArguments (what : String)
  | Unimplemented (what : String)
deriving DecidableEq, Repr

/-- An error message together with the span it is attached to. -/
structure LangError where
  msg : LangErrorMsg
  span : Option Span
deriving DecidableEq, Repr

/-- `LangErrorMsg::with_span` from the source. -/
def LangErrorMsg.with_span (m : LangErrorMsg) (sp : Span) : LangError := ⟨m, some sp⟩

/-- `LangErrorMsg::without_span` from the source. -/
def LangErrorMsg.without_span (m : LangErrorMsg) : LangError := ⟨m, none⟩

/-- `LangResult<T> = Result<T, LangError>`. -/
abbrev LangResult (α : Type) : Type := Except LangError α

/-! ## Parse trees (input contract from the parser) -/

/-- Operator tokens produced by the lexer that the two source files
pattern-match on. -/
inductive OperatorToken where
  | Plus
  | Minus
  | Asterisk
  | Slash
  | Percent
  | DoubleAsterisk
  | DoubleLessThan
  | DoubleGreaterThan
  | TripleGreaterThan
  | Ampersand
  | Pipe
  | Tag
  | Dot
  | DotDot
  | LessThan
  | GreaterThan
deriving DecidableEq, Repr

/-- Punctuation tokens used to open a grouped expression. -/
inductive PunctuationToken where
  | LParen
  | LBracket
  | LBrace
deriving DecidableEq, Repr

/-- `parser::Expr`: the expression shapes of the parse tree consumed by
`build_expression_ast`. -/
inductive PExpr where
  | Int (i : Int)
  | Ident (s : String)
  | Group (start_token : PunctuationToken) (inner : Spanned PExpr)
  | List (items : List (Spanned PExpr))
  | UnaryOp (op : OperatorToken) (operand : Spanned PExpr)
  | BinaryOp (lhs : Spanned PExpr) (op : OperatorToken) (rhs : Spanned PExpr)
  | Cmp (exprs : List (Spanned PExpr)) (cmps : List OperatorToken)

/-- `parser::Statement`: the statement shapes of the parse tree consumed
by `build_statement_block_ast`.  The `assign_op` field stands for the
result of `assign_op.op()` in the source: `some op` for a compound
assignment `x op= e`, `none` for a plain `x = e`. -/
inductive PStatement where
  | SetVar (var_expr : Spanned PExpr) (assign_op : Option OperatorToken)
      (value_expr : Spanned PExpr)
  | If (cond_expr : Spanned PExpr) (if_true : List (Spanned PStatement))
      (if_false : List (Spanned PStatement))
  | Become (ret_expr : Spanned PExpr)
  | Return (ret_expr : Spanned PExpr)

/-! ## The built AST: refs, expressions, statements, user functions -/

/-- `ExprRef`: newtype of `usize` indexing the expression arena. -/
structure ExprRef where
  idx : Nat
deriving DecidableEq, Repr

/-- `StatementRef`: newtype of `usize` indexing the statement arena. -/
structure StatementRef where
  idx : Nat
deriving DecidableEq, Repr

/-- `ErrorPointRef`: index into the error-point table, carrying a copy of
the registered error (as in the source struct). -/
structure ErrorPointRef where
  idx : Nat
  error : LangError
deriving DecidableEq, Repr

/-- The resolved operation of an expression node (a capability from the
function registry).  The registry itself is outside the two source
files; the variants are the ones `build_expression_ast` constructs:
integer literals, variable reads (with the resolved type), unary
negation, integer-to-cell-state conversion, binary integer operations,
and chained comparisons.  (Named `Func` because dot notation on a type
named `Function` conflicts with the Mathlib namespace of that name.) -/
inductive Func where
  | Int (i : Int)
  | GetVar (var_name : String) (ty : Ty)
  | NegInt
  | IntToCellState
  | BinaryIntOp (op : OperatorToken)
  | Cmp (cmps : List OperatorToken)
deriving DecidableEq, Repr

/-- An expression AST node: resolved operation, argument references and
static result type (spec section 3), plus its span. -/
structure Expr where
  span : Span
  function : Func
  args : List ExprRef
  ty : Ty
deriving DecidableEq, Repr

/-- A statement AST node: the closed variant set
{assignment, conditional, return-or-become} (spec section 3). -/
inductive Statement where
  | SetVar (span : Span) (var_name : String) (value_expr : ExprRef)
  | If (span : Span) (cond_expr : ExprRef) (if_true : List StatementRef)
      (if_false : List StatementRef)
  | Return (span : Span) (ret_expr : ExprRef)
deriving DecidableEq, Repr

/-- Modelled from the spec: `RuleMeta`, shared read-only metadata of the
automaton rule (dimensionality, neighborhood radius, state count); the
defining module is not among the given source files. -/
structure RuleMeta where
  ndim : Nat
  radius : Nat
  states : Nat
deriving DecidableEq, Repr

/-- `UserFunction`: the unit of compilation.  Owns the three arenas, the
variable-type environment `variables` (modelled as an association list
standing for the `HashMap`; renamed `vars` since Lean reserves the word), the declared return type and the transition-function
flag. -/
structure UserFunction where
  rule_meta : RuleMeta
  return_type : Ty
  is_transition_function : Bool
  statements : List Statement
  expressions : List Expr
  error_points : List LangError
  vars : List (String × Ty)
deriving DecidableEq, Repr

/-- `UserFunction::new_helper_function`. -/
def UserFunction.new_helper_function (rule_meta : RuleMeta) (return_type : Ty) :
    UserFunction where
  rule_meta := rule_meta
  return_type := return_type
  is_transition_function := false
  statements := []
  expressions := []
  error_points := []
  vars := []

/-- `UserFunction::new_transition_function`: a helper function returning
`CellState`, with the transition-function flag set. -/
def UserFunction.new_transition_function (rule_meta : RuleMeta) : UserFunction :=
  { UserFunction.new_helper_function rule_meta Ty.CellState with
    is_transition_function := true }

/-- `UserFunction::try_get_var`. -/
def UserFunction.try_get_var (u : UserFunction) (span : Span) (var_name : String) :
    LangResult Ty :=
  match u.vars.lookup var_name with
  | some ty => .ok ty
  | none => .error (LangErrorMsg.UseOfUninitializedVariable.with_span span)

/-- `UserFunction::get_or_create_var`: returns the existing type if the
variable is already known, otherwise registers it with the proposed
type.  Mutation of `self` is modelled by returning the new state. -/
def UserFunction.get_or_create_var (u : UserFunction) (var_name : String)
    (new_ty : Ty) : Ty × UserFunction :=
  match u.vars.lookup var_name with
  | some existing_type => (existing_type, u)
  | none => (new_ty, { u with vars := (var_name, new_ty) :: u.vars })

/-- `UserFunction::add_statement`: append to the statement arena and
return a reference holding the pre-insertion length. -/
def UserFunction.add_statement (u : UserFunction) (statement : Statement) :
    StatementRef × UserFunction :=
  (⟨u.statements.length⟩, { u with statements := u.statements ++ [statement] })

/-- `UserFunction::add_expr`: append to the expression arena. -/
def UserFunction.add_expr (u : UserFunction) (expr : Expr) :
    ExprRef × UserFunction :=
  (⟨u.expressions.length⟩, { u with expressions := u.expressions ++ [expr] })

/-- `UserFunction::add_error_point`: append to the error-point table. -/
def UserFunction.add_error_point (u : UserFunction) (error : LangError) :
    ErrorPointRef × UserFunction :=
  (⟨u.error_points.length, error⟩,
    { u with error_points := u.error_points ++ [error] })

/-- `Index<ExprRef> for UserFunction` (total indexing in the source;
out-of-range access, which panics there, is `none` here). -/
def UserFunction.indexExpr (u : UserFunction) (r : ExprRef) : Option Expr :=
  u.expressions.get? r.idx

/-- `Index<StatementRef> for UserFunction`. -/
def UserFunction.indexStatement (u : UserFunction) (r : StatementRef) :
    Option Statement :=
  u.statements.get? r.idx

/-- `Index<ErrorPointRef> for UserFunction`. -/
def UserFunction.indexErrorPoint (u : UserFunction) (r : ErrorPointRef) :
    Option LangError :=
  u.error_points.get? r.idx

/-! ## Capabilities of the function registry

The registry (`functions::...`) lives outside the two given source
files; these definitions are modelled from the spec (section 4.1 and
section 6): each capability validates its own argument count and types
and produces the static result type. -/

/-- Modelled from the spec: the per-capability argument-count/type check
and result type.  Integer literal, negation and the binary integer
operations work on `Int`; the cast produces `CellState`; a variable read
produces the resolved type of the variable; a chained comparison takes
at least two integer operands and produces an integer truth value. -/
def Func.return_ty (f : Func) (arg_tys : List Ty) : LangResult Ty :=
  match f, arg_tys with
  | .Int _, [] => .ok .Int
  | .GetVar _ ty, [] => .ok ty
  | .NegInt, [.Int] => .ok .Int
  | .IntToCellState, [.Int] => .ok .CellState
  | .BinaryIntOp _, [.Int, .Int] => .ok .Int
  | .Cmp _, tys =>
      if 2 ≤ tys.length ∧ tys.all (· = .Int) then .ok .Int
      else .error (LangErrorMsg.InvalidArguments "comparison").without_span
  | _, _ => .error (LangErrorMsg.InvalidArguments "argument mismatch").without_span

/-- Modelled from the spec: `functions::misc::GetVar::try_new` resolves
the variable read, surfacing `UseOfUninitializedVariable` when the name
is unknown (spec section 4.1: the capability, not the builder, checks). -/
def GetVar_try_new (u : UserFunction) (span : Span) (var_name : String) :
    LangResult Func := do
  let ty ← u.try_get_var span var_name
  .ok (Func.GetVar var_name ty)

/-- Modelled from the spec: `Expr::try_new` validates the constructed
expression through its capability (argument checking happens inside the
capability) and records the static result type. -/
def Expr.try_new (span : Span) (u : UserFunction) (function : Func)
    (args : List ExprRef) : LangResult Expr := do
  let arg_tys ← args.mapM (fun r =>
    match u.expressions.get? r.idx with
    | some e => Except.ok e.ty
    | none => Except.error (LangErrorMsg.InternalError "invalid ExprRef").without_span)
  let ty ← function.return_ty arg_tys
  .ok ⟨span, function, args, ty⟩

/-- The shared tail of `build_expression_ast`: validate via
`Expr::try_new`, then append to the expression arena. -/
def UserFunction.finish_expr (u : UserFunction) (span : Span)
    (function : Func) (args : List ExprRef) :
    LangResult (ExprRef × UserFunction) := do
  let expr ← Expr.try_new span u function args
  .ok (u.add_expr expr)

mutual

/-- `UserFunction::build_expression_ast`: constructs an AST node for an
expression from a parse tree, dispatching on the parse-tree shape
exactly as the source match does.  The `todo!()` branches of the source
(bracketed vector literals, method calls, ranges) are modelled as
`Unimplemented` errors. -/
def UserFunction.build_expression_ast (u : UserFunction)
    (parser_expr : Spanned PExpr) : LangResult (ExprRef × UserFunction) :=
  match parser_expr with
  | ⟨span, pe⟩ =>
    match pe with
    -- Integer literal
    | .Int i => u.finish_expr span (Func.Int i) []
    -- Identifier (variable)
    | .Ident s => do
        let f ← GetVar_try_new u span s
        u.finish_expr span f []
    -- Parenthetical/bracketed group
    | .Group start_token inner =>
        match start_token with
        | .LParen => u.build_expression_ast inner
        | .LBracket => .error (LangErrorMsg.Unimplemented "Construct vector").without_span
        | _ => .error ((LangErrorMsg.InternalError "Invalid group").with_span span)
    -- Comma-separated list
    | .List _ =>
        .error ((LangErrorMsg.ExpectedGot "expression" "comma-separated list").with_span span)
    -- Unary operator
    | .UnaryOp op operand =>
        match op with
        -- Negation
        | .Minus => do
            let (r, u) ← u.build_expression_ast operand
            u.finish_expr span Func.NegInt [r]
        -- Get cell state from integer ID
        | .Tag => do
            let (r, u) ← u.build_expression_ast operand
            u.finish_expr span Func.IntToCellState [r]
        | _ => .error ((LangErrorMsg.InternalError "Invalid unary operator").with_span span)
    -- Binary operator
    | .BinaryOp lhs op rhs =>
        match op with
        -- Math
        | .Plus | .Minus | .Asterisk | .Slash | .Percent | .DoubleAsterisk
        | .DoubleLessThan | .DoubleGreaterThan | .TripleGreaterThan
        | .Ampersand | .Pipe => do
            let (rl, u) ← u.build_expression_ast lhs
            let (rr, u) ← u.build_expression_ast rhs
            u.finish_expr span (Func.BinaryIntOp op) [rl, rr]
        -- Method call
        | .Dot => .error (LangErrorMsg.Unimplemented "Method call").without_span
        -- Range
        | .DotDot => .error (LangErrorMsg.Unimplemented "Range").without_span
        | _ => .error ((LangErrorMsg.InternalError "Invalid binary operator").with_span span)
    -- Comparison
    | .Cmp exprs cmps => do
        let (rs, u) ← UserFunction.build_expression_list u exprs
        u.finish_expr span (Func.Cmp cmps) rs

/-- The `exprs.iter().map(...).collect::<LangResult<Vec<_>>>()` of the
comparison branch: build each operand expression left to right. -/
def UserFunction.build_expression_list (u : UserFunction) :
    List (Spanned PExpr) → LangResult (List ExprRef × UserFunction)
  | [] => .ok ([], u)
  | e :: rest => do
      let (r, u) ← UserFunction.build_expression_ast u e
      let (rs, u) ← UserFunction.build_expression_list u rest
      .ok (r :: rs, u)

end

/-- Modelled from the spec: `statements::SetVar::try_new` binds the
(possibly desugared) value expression to the variable, registering the
first-write-wins type of the variable via `get_or_create_var`
(spec sections 4.1 and 3). -/
def SetVar_try_new (span : Span) (u : UserFunction) (var_name : String)
    (value_expr : ExprRef) : LangResult (Statement × UserFunction) :=
  match u.expressions.get? value_expr.idx with
  | some e =>
      .ok (Statement.SetVar span var_name value_expr,
           (u.get_or_create_var var_name e.ty).2)
  | none => .error (LangErrorMsg.InternalError "invalid expression reference").without_span

/-- Modelled from the spec: `statements::If::try_new` combines the
independently built condition and branches into one conditional node
(spec section 4.1). -/
def If_try_new (span : Span) (u : UserFunction) (cond_expr : ExprRef)
    (if_true if_false : List StatementRef) : LangResult (Statement × UserFunction) :=
  .ok (Statement.If span cond_expr if_true if_false, u)

/-- Modelled from the spec: `statements::Return::try_new` combines the
built return-value expression into a return statement node; the
keyword-versus-function-kind legality check has already been performed
by the builder (spec section 4.1). -/
def Return_try_new (span : Span) (u : UserFunction) (ret_expr : ExprRef) :
    LangResult (Statement × UserFunction) :=
  .ok (Statement.Return span ret_expr, u)

/-- `UserFunction::build_statement_block_ast`: constructs AST nodes for a
statement block from a parse tree, mirroring the source loop: each
statement is dispatched on its shape, compound assignments are desugared
into `x = x op e` before the value expression is built, exit-statement
keywords are checked against the function kind, and each constructed
node is appended to the statement arena. -/
def UserFunction.build_statement_block_ast (u : UserFunction)
    (parser_statements : List (Spanned PStatement)) :
    LangResult (List StatementRef × UserFunction) :=
  match parser_statements with
  | [] => .ok ([], u)
  | ⟨span, stmt_inner⟩ :: rest => do
    let (new_statement, u) ←
      (match stmt_inner with
      -- Variable assignment statement
      | .SetVar var_expr assign_op value_expr =>
          match var_expr.inner with
          | .Ident var_name => do
              -- Handle assignments with operators (e.g. `x += 3`).
              let (value_ref, u) ←
                (match assign_op with
                | some op =>
                    UserFunction.build_expression_ast u
                      ⟨span, .BinaryOp ⟨var_expr.span, .Ident var_name⟩ op value_expr⟩
                | none => UserFunction.build_expression_ast u value_expr)
              SetVar_try_new span u var_name value_ref
          | _ => .error ((LangErrorMsg.Expected "variable name").with_span span)
      -- If statement
      | .If cond_expr if_true if_false => do
          let (cond_ref, u) ← UserFunction.build_expression_ast u cond_expr
          let (t, u) ← UserFunction.build_statement_block_ast u if_true
          let (f, u) ← UserFunction.build_statement_block_ast u if_false
          If_try_new span u cond_ref t f
      -- Become statement (in a transition function, `become` is used, not `return`)
      | .Become ret_expr =>
          if u.is_transition_function then do
            let (r, u) ← UserFunction.build_expression_ast u ret_expr
            Return_try_new span u r
          else .error (LangErrorMsg.BecomeInHelperFunction.with_span span)
      -- Return statement (in a helper function, `return` is used, not `become`)
      | .Return ret_expr =>
          if u.is_transition_function then
            .error (LangErrorMsg.ReturnInTransitionFunction.with_span span)
          else do
            let (r, u) ← UserFunction.build_expression_ast u ret_expr
            Return_try_new span u r)
    let (sref, u) := u.add_statement new_statement
    let (rest_refs, u) ← UserFunction.build_statement_block_ast u rest
    .ok (sref :: rest_refs, u)

/-! ## Code generator (`src/compiler/mod.rs`)

The LLVM module/builder pair is embedded as an explicit list of basic
blocks plus a cursor (the insertion position of the instruction
builder).  Branch-free instructions that only compute values (integer
compares, `and` on flags, the overflow intrinsics) are embedded
shallowly: the `IntValue` they produce is the concrete bit pattern (a
`Nat`) the instruction computes at run time.  Terminator instructions
are recorded in the blocks so that the generated control flow can be
executed by the interpreter `run` below. -/

/-- A terminator instruction of a basic block. -/
inductive Term where
  | switch (cond : Nat) (else_block : Nat) (cases : List (Nat × Nat))
  | br (dest : Nat)
  | ret (value : Nat)
deriving DecidableEq, Repr

/-- An LLVM basic block: its label and its optional terminator. -/
structure BBlock where
  name : String
  term : Option Term
deriving DecidableEq, Repr

/-- The `Compiler` state: the blocks of the function being built and the
cursor (index of the block the builder is positioned at). -/
structure Compiler where
  blocks : List BBlock
  cursor : Nat
deriving DecidableEq, Repr

/-- Replace the element at an index of a list (identity out of range). -/
def listModify (f : α → α) : Nat → List α → List α
  | _, [] => []
  | 0, x :: xs => f x :: xs
  | n + 1, x :: xs => x :: listModify f n xs

/-- `Compiler::append_basic_block`: appends a fresh (unterminated) block
to the end of the current function and returns its handle; the cursor
does not move. -/
def Compiler.append_basic_block (c : Compiler) (name : String) : Nat × Compiler :=
  (c.blocks.length, { c with blocks := c.blocks ++ [⟨name, none⟩] })

/-- `Compiler::needs_terminator`: whether the block at the cursor still
lacks a terminator instruction. -/
def Compiler.needs_terminator (c : Compiler) : Bool :=
  match c.blocks.get? c.cursor with
  | some b => b.term.isNone
  | none => true

/-- `Builder::position_at_end`: move the cursor to a block. -/
def Compiler.position_at_end (c : Compiler) (bb : Nat) : Compiler :=
  { c with cursor := bb }

/-- Emit a terminator at the cursor block (the builder appends it at the
insertion position; the source only does this on unterminated blocks). -/
def Compiler.build_terminator (c : Compiler) (t : Term) : Compiler :=
  { c with blocks := listModify (fun b => { b with term := some t }) c.cursor c.blocks }

/-- The i1 value an LLVM compare produces: 1 for true, 0 for false. -/
def natOfBool : Bool → Nat
  | true => 1
  | false => 0

/-- `Compiler::build_conditional`: allocates the true-arm, false-arm and
merge blocks, dispatches via `build_switch` sending 0 to the false arm
and everything else (the default case) to the true arm, runs each
callback with the cursor at its arm, inserts the branch to the merge
block after an arm only when that arm still needs a terminator, and
leaves the cursor at the merge block. -/
def Compiler.build_conditional (c : Compiler) (condition_value : Nat)
    (build_if_true : Compiler → LangResult Compiler)
    (build_if_false : Compiler → LangResult Compiler) : LangResult Compiler := do
  -- Build the destination blocks.
  let (if_true_bb, c) := c.append_basic_block "ifTrue"
  let (if_false_bb, c) := c.append_basic_block "ifFalse"
  let (merge_bb, c) := c.append_basic_block "endIf"
  -- Build the switch instruction (because condition_value might not be 1-bit).
  let c := c.build_terminator (.switch condition_value if_true_bb [(0, if_false_bb)])
  -- Build the instructions to execute if true.
  let c := c.position_at_end if_true_bb
  let c ← build_if_true c
  let c := if c.needs_terminator then c.build_terminator (.br merge_bb) else c
  -- Build the instructions to execute if false.
  let c := c.position_at_end if_false_bb
  let c ← build_if_false c
  let c := if c.needs_terminator then c.build_terminator (.br merge_bb) else c
  .ok (c.position_at_end merge_bb)

/-- The 64-bit return value `build_return_error` encodes: the error-point
index with bit 63 set (`error_index | (1 << 63)` in the source). -/
def build_return_error_value (error_index : Nat) : Nat :=
  error_index ||| (1 <<< 63)

/-- `Compiler::build_return_error`: returns the encoded error value. -/
def Compiler.build_return_error (c : Compiler) (error_index : Nat) : Compiler :=
  c.build_terminator (.ret (build_return_error_value error_index))

/-- Modelled from the spec: the host-side decoding of the 64-bit return
value (spec section 6): bit 63 set means error, and the remaining bits
are the error-point index; bit 63 clear means the bits are the result. -/
def decode_return (v : Nat) : Bool × Nat :=
  (v.testBit 63, v % 2 ^ 63)

/-- `Compiler::get_min_int_value`: `1` shifted left by `bit_width - 1`
inside the integer type of that width. -/
def get_min_int_value (w : Nat) : Nat :=
  (1 <<< (w - 1)) % 2 ^ w

/-- `Compiler::build_checked_int_arithmetic`: calls the overflow-reporting
intrinsic (its value semantics is the parameter `intrinsic`, standing
for `llvm.<name>.with.overflow.<iN>`), extracts the result value and the
overflow flag from the returned struct, branches on the flag via
`build_conditional` with `on_overflow` as the true arm and a fallthrough
false arm, and returns the extracted result value. -/
def Compiler.build_checked_int_arithmetic (c : Compiler) (lhs rhs : Nat)
    (intrinsic : Nat → Nat → Nat × Bool)
    (on_overflow : Compiler → LangResult Compiler) :
    LangResult (Nat × Compiler) := do
  -- Build a call to an LLVM intrinsic to do the operation; the return
  -- value is a struct of the integer result and the overflow flag.
  let return_value := intrinsic lhs rhs
  let result_value := return_value.1
  let is_overflow := natOfBool return_value.2
  -- Branch based on whether there is overflow.
  let c ← c.build_conditional is_overflow on_overflow (fun c => .ok c)
  .ok (result_value, c)

/-- `Compiler::build_div_check`: the two-stage guarded division.  Stage
one compares the denominator with zero and branches, with
`on_div_by_zero` as the true arm; only the false arm (denominator
nonzero) computes `lhs == MIN_INT && rhs == -1` and branches again, with
`on_overflow` as the true arm and a fallthrough false arm on which the
caller performs the division. -/
def Compiler.build_div_check (c : Compiler) (w : Nat) (lhs rhs : Nat)
    (on_overflow : Compiler → LangResult Compiler)
    (on_div_by_zero : Compiler → LangResult Compiler) : LangResult Compiler :=
  -- If the denominator (rhs) is zero, that is a DivideByZero error.
  let zero := 0
  let is_div_by_zero := natOfBool (rhs == zero)
  -- Branch based on whether the denominator is zero.
  c.build_conditional is_div_by_zero
    -- The denominator is zero.
    on_div_by_zero
    -- The denominator is not zero.
    (fun c =>
      -- If the numerator is the minimum possible value and the
      -- denominator is -1, that is an IntegerOverflow error.
      let min_value := get_min_int_value w
      let num_is_min_value := natOfBool (lhs == min_value)
      let negative_one := 2 ^ w - 1
      let denom_is_neg_one := natOfBool (rhs == negative_one)
      let is_overflow := num_is_min_value &&& denom_is_neg_one
      -- Branch based on whether there is overflow.
      c.build_conditional is_overflow
        -- Overflow would occur.
        on_overflow
        -- Overflow would not occur; it is safe to perform the division.
        (fun c => .ok c))

/-! ## Executing the generated control flow -/

/-- The observable outcome of executing the generated blocks from some
entry block: a `ret` with a value, falling through into a block that has
no terminator yet (the open merge block on the safe path), or getting
stuck (out of fuel or a jump to a nonexistent block). -/
inductive ExecResult where
  | returned (value : Nat)
  | fell_through (bb : Nat)
  | stuck
deriving DecidableEq, Repr

/-- LLVM switch dispatch: the case whose constant equals the condition
value wins; otherwise control goes to the else block. -/
def switch_target (cond else_block : Nat) (cases : List (Nat × Nat)) : Nat :=
  match cases.find? (fun p => p.1 == cond) with
  | some p => p.2
  | none => else_block

/-- Execute the generated blocks starting at a block index, with fuel. -/
def run (c : Compiler) : Nat → Nat → ExecResult
  | _, 0 => .stuck
  | bb, fuel + 1 =>
    match c.blocks.get? bb with
    | none => .stuck
    | some blk =>
      match blk.term with
      | none => .fell_through bb
      | some (.ret v) => .returned v
      | some (.br d) => run c d fuel
      | some (.switch cond eb cases) => run c (switch_target cond eb cases) fuel

/-- An initial compiler state: a single open entry block, cursor on it. -/
def entry_compiler : Compiler := ⟨[⟨"entry", none⟩], 0⟩

/-- The two shapes of arm callback the claims exercise: a trapping error
return (`ErrorPointRef::compile`, which calls `build_return_error`) and
an arm that emits no terminator and falls through. -/
inductive ArmAction where
  | fall_through
  | trap_return (error_index : Nat)
deriving DecidableEq, Repr

/-- Run an arm action as a `build_conditional` callback. -/
def ArmAction.build : ArmAction → Compiler → LangResult Compiler
  | .fall_through, c => .ok c
  | .trap_return k, c => .ok (c.build_return_error k)

/-- The terminator an arm block ends up with after `build_conditional`:
a trapping arm keeps its error return; an arm that built no terminator
gets the unconditional branch to the merge block. -/
def arm_result_term : ArmAction → Nat → Option Term
  | .fall_through, merge_bb => some (.br merge_bb)
  | .trap_return k, _ => some (.ret (build_return_error_value k))

/-- `build_div_check` on the entry state with trapping error-point
callbacks, followed by execution of the generated blocks from the entry
block (`none` if building failed). -/
def div_check_exec (w lhs rhs err_overflow err_div_by_zero : Nat) : Option ExecResult :=
  match Compiler.build_div_check entry_compiler w lhs rhs
      (ArmAction.build (.trap_return err_overflow))
      (ArmAction.build (.trap_return err_div_by_zero)) with
  | .ok c => some (run c 0 9)
  | .error _ => none

/-- `build_checked_int_arithmetic` on the entry state with a trapping
overflow callback, followed by execution of the generated blocks. -/
def checked_int_arithmetic_exec (intrinsic : Nat → Nat → Nat × Bool)
    (lhs rhs err_overflow : Nat) : Option (Nat × ExecResult) :=
  match Compiler.build_checked_int_arithmetic entry_compiler lhs rhs intrinsic
      (ArmAction.build (.trap_return err_overflow)) with
  | .ok (v, c) => some (v, run c 0 9)
  | .error _ => none

/-- Signed reading of a `w`-bit pattern. -/
def toSigned (w n : Nat) : Int :=
  if n < 2 ^ (w - 1) then (n : Int) else (n : Int) - 2 ^ w

/-- Modelled from the spec: the value semantics of the LLVM
`llvm.sadd.with.overflow` intrinsic on `w`-bit integers (spec glossary:
checked arithmetic is the operation paired with a reported overflow
flag): the wrapped sum and whether the signed sum leaves the
representable range. -/
def sadd_with_overflow (w : Nat) (a b : Nat) : Nat × Bool :=
  ((a + b) % 2 ^ w,
    decide (toSigned w a + toSigned w b < -(2 ^ (w - 1) : Int) ∨
            (2 ^ (w - 1) : Int) ≤ toSigned w a + toSigned w b))

/-! ## Arena insertion sequences (for the append-only invariant) -/

/-- One insertion into one of the three arenas of a `UserFunction`. -/
inductive ArenaOp where
  | stmt (st : Statement)
  | expr (e : Expr)
  | err (er : LangError)

/-- Apply a sequence of arena insertions. -/
def applyArenaOps (u : UserFunction) : List ArenaOp → UserFunction
  | [] => u
  | .stmt st :: rest => applyArenaOps (u.add_statement st).2 rest
  | .expr e :: rest => applyArenaOps (u.add_expr e).2 rest
  | .err er :: rest => applyArenaOps (u.add_error_point er).2 rest

/-- The statements a sequence of insertions appends. -/
def opsStatements (ops : List ArenaOp) : List Statement :=
  ops.filterMap (fun op => match op with | .stmt st => some st | _ => none)

/-- The expressions a sequence of insertions appends. -/
def opsExpressions (ops : List ArenaOp) : List Expr :=
  ops.filterMap (fun op => match op with | .expr e => some e | _ => none)

/-- The error points a sequence of insertions appends. -/
def opsErrorPoints (ops : List ArenaOp) : List LangError :=
  ops.filterMap (fun op => match op with | .err er => some er | _ => none)

/-! ## Helper lemmas -/

/-- Looking up the element right after a prefix of known length. -/
theorem get?_append_cons_length (xs : List α) (y : α) (zs : List α) :
    (xs ++ y :: zs).get? xs.length = some y := by
  induction xs with
  | nil => rfl
  | cons x xs ih => simpa using ih

/-- Lookup left of an appended tail is unchanged. -/
theorem get?_append_left (xs ys : List α) (i : Nat) (h : i < xs.length) :
    (xs ++ ys).get? i = xs.get? i := by
  induction xs generalizing i with
  | nil => simp at h
  | cons x xs ih =>
    cases i with
    | zero => rfl
    | succ j => simpa using ih j (by simpa using h)

/-- `listModify` at the index right after a prefix of known length. -/
theorem listModify_append_cons (f : α → α) (xs : List α) (y : α) (zs : List α) :
    listModify f xs.length (xs ++ y :: zs) = xs ++ f y :: zs := by
  induction xs with
  | nil => rfl
  | cons x xs ih => simpa [listModify] using ih

/-! ## C10: initial state of transition and helper functions -/

/-- C10: a `UserFunction` from `new_transition_function` has the
transition flag set and return type `CellState`; one from
`new_helper_function` has the flag clear and the given return type;
both start with empty statement, expression and error-point arenas and
an empty variable environment. -/
theorem new_function_initial_state (rm : RuleMeta) (rt : Ty) :
    (UserFunction.new_transition_function rm).is_transition_function = true ∧
    (UserFunction.new_transition_function rm).return_type = Ty.CellState ∧
    (UserFunction.new_transition_function rm).rule_meta = rm ∧
    (UserFunction.new_transition_function rm).statements = [] ∧
    (UserFunction.new_transition_function rm).expressions = [] ∧
    (UserFunction.new_transition_function rm).error_points = [] ∧
    (UserFunction.new_transition_function rm).vars = [] ∧
    (UserFunction.new_helper_function rm rt).is_transition_function = false ∧
    (UserFunction.new_helper_function rm rt).return_type = rt ∧
    (UserFunction.new_helper_function rm rt).rule_meta = rm ∧
    (UserFunction.new_helper_function rm rt).statements = [] ∧
    (UserFunction.new_helper_function rm rt).expressions = [] ∧
    (UserFunction.new_helper_function rm rt).error_points = [] ∧
    (UserFunction.new_helper_function rm rt).vars = [] :=
  ⟨rfl, rfl, rfl, rfl, rfl, rfl, rfl, rfl, rfl, rfl, rfl, rfl, rfl, rfl⟩

/-! ## C9: parenthesized groups are transparent -/

/-- C9: building a parenthesized group is literally building the inner
expression: the same `ExprRef` is returned and the arenas evolve
identically (no wrapping node). -/
theorem paren_group_transparent (u : UserFunction) (sp : Span)
    (inner : Spanned PExpr) :
    u.build_expression_ast ⟨sp, PExpr.Group PunctuationToken.LParen inner⟩
      = u.build_expression_ast inner := by
  rw [UserFunction.build_expression_ast]

/-! ## C7: get_or_create_var is idempotent on type -/

/-- C7: the first call on an unknown name registers the proposed type
and returns it (for a known name it returns the registered type and the
proposed one is ignored), and every subsequent call, with any proposed
type, returns the originally registered type and leaves the variable
environment unchanged. -/
theorem get_or_create_var_idempotent (u : UserFunction) (name : String)
    (t t2 : Ty) :
    (u.get_or_create_var name t).1 = (u.vars.lookup name).getD t ∧
    (u.get_or_create_var name t).2.vars.lookup name
      = some (u.get_or_create_var name t).1 ∧
    (u.get_or_create_var name t).2.get_or_create_var name t2
      = ((u.get_or_create_var name t).1, (u.get_or_create_var name t).2) := by
  cases h : u.vars.lookup name with
  | none => simp [UserFunction.get_or_create_var, h, List.lookup]
  | some ty => simp [UserFunction.get_or_create_var, h]

/-! ## C8: the three arenas are append-only -/

/-- Any sequence of insertions only ever appends to the statement arena. -/
theorem applyArenaOps_statements (ops : List ArenaOp) (u : UserFunction) :
    (applyArenaOps u ops).statements = u.statements ++ opsStatements ops := by
  induction ops generalizing u with
  | nil => simp [applyArenaOps, opsStatements]
  | cons op rest ih =>
    cases op with
    | stmt st =>
        simp [applyArenaOps, opsStatements, List.filterMap_cons, ih,
          UserFunction.add_statement]
    | expr e =>
        simp [applyArenaOps, opsStatements, List.filterMap_cons, ih,
          UserFunction.add_expr]
    | err er =>
        simp [applyArenaOps, opsStatements, List.filterMap_cons, ih,
          UserFunction.add_error_point]

/-- Any sequence of insertions only ever appends to the expression arena. -/
theorem applyArenaOps_expressions (ops : List ArenaOp) (u : UserFunction) :
    (applyArenaOps u ops).expressions = u.expressions ++ opsExpressions ops := by
  induction ops generalizing u with
  | nil => simp [applyArenaOps, opsExpressions]
  | cons op rest ih =>
    cases op with
    | stmt st =>
        simp [applyArenaOps, opsExpressions, List.filterMap_cons, ih,
          UserFunction.add_statement]
    | expr e =>
        simp [applyArenaOps, opsExpressions, List.filterMap_cons, ih,
          UserFunction.add_expr]
    | err er =>
        simp [applyArenaOps, opsExpressions, List.filterMap_cons, ih,
          UserFunction.add_error_point]

/-- Any sequence of insertions only ever appends to the error-point table. -/
theorem applyArenaOps_error_points (ops : List ArenaOp) (u : UserFunction) :
    (applyArenaOps u ops).error_points = u.error_points ++ opsErrorPoints ops := by
  induction ops generalizing u with
  | nil => simp [applyArenaOps, opsErrorPoints]
  | cons op rest ih =>
    cases op with
    | stmt st =>
        simp [applyArenaOps, opsErrorPoints, List.filterMap_cons, ih,
          UserFunction.add_statement]
    | expr e =>
        simp [applyArenaOps, opsErrorPoints, List.filterMap_cons, ih,
          UserFunction.add_expr]
    | err er =>
        simp [applyArenaOps, opsErrorPoints, List.filterMap_cons, ih,
          UserFunction.add_error_point]

/-- C8: each of `add_statement`, `add_expr` and `add_error_point`
appends its node at the end of its arena and returns a reference whose
index is the pre-insertion length, and indexing at that reference still
yields the inserted node unchanged after any further sequence of
insertions into any of the arenas. -/
theorem arenas_append_only (u : UserFunction) (st : Statement) (e : Expr)
    (er : LangError) (ops : List ArenaOp) :
    (u.add_statement st).1 = ⟨u.statements.length⟩ ∧
    (u.add_statement st).2.statements = u.statements ++ [st] ∧
    (applyArenaOps (u.add_statement st).2 ops).indexStatement (u.add_statement st).1
      = some st ∧
    (u.add_expr e).1 = ⟨u.expressions.length⟩ ∧
    (u.add_expr e).2.expressions = u.expressions ++ [e] ∧
    (applyArenaOps (u.add_expr e).2 ops).indexExpr (u.add_expr e).1 = some e ∧
    (u.add_error_point er).1 = ⟨u.error_points.length, er⟩ ∧
    (u.add_error_point er).2.error_points = u.error_points ++ [er] ∧
    (applyArenaOps (u.add_error_point er).2 ops).indexErrorPoint
      (u.add_error_point er).1 = some er := by
  refine ⟨rfl, rfl, ?_, rfl, rfl, ?_, rfl, rfl, ?_⟩
  · rw [UserFunction.indexStatement, applyArenaOps_statements]
    show (u.statements ++ [st] ++ opsStatements ops).get? u.statements.length = some st
    rw [List.append_assoc]
    exact get?_append_cons_length u.statements st (opsStatements ops)
  · rw [UserFunction.indexExpr, applyArenaOps_expressions]
    show (u.expressions ++ [e] ++ opsExpressions ops).get? u.expressions.length = some e
    rw [List.append_assoc]
    exact get?_append_cons_length u.expressions e (opsExpressions ops)
  · rw [UserFunction.indexErrorPoint, applyArenaOps_error_points]
    show (u.error_points ++ [er] ++ opsErrorPoints ops).get? u.error_points.length
      = some er
    rw [List.append_assoc]
    exact get?_append_cons_length u.error_points er (opsErrorPoints ops)

/-! ## C5: exit-statement keyword must match the function kind -/

/-- C5: against a helper function a `become` statement fails to build
with `BecomeInHelperFunction` (whatever its return expression); against
a transition function a `return` statement fails with
`ReturnInTransitionFunction`; and the matching keyword (here with an
integer-literal return expression) builds successfully into a return
statement node appended to the statement arena. -/
theorem exit_statement_kind_check (u : UserFunction) (sp esp : Span)
    (e : Spanned PExpr) (i : Int) :
    UserFunction.build_statement_block_ast { u with is_transition_function := false }
        [⟨sp, PStatement.Become e⟩]
      = .error (LangErrorMsg.BecomeInHelperFunction.with_span sp) ∧
    UserFunction.build_statement_block_ast { u with is_transition_function := true }
        [⟨sp, PStatement.Return e⟩]
      = .error (LangErrorMsg.ReturnInTransitionFunction.with_span sp) ∧
    UserFunction.build_statement_block_ast { u with is_transition_function := true }
        [⟨sp, PStatement.Become ⟨esp, PExpr.Int i⟩⟩]
      = .ok ([⟨u.statements.length⟩],
          { u with
            is_transition_function := true
            expressions := u.expressions ++ [⟨esp, Func.Int i, [], Ty.Int⟩]
            statements := u.statements ++ [Statement.Return sp ⟨u.expressions.length⟩] }) ∧
    UserFunction.build_statement_block_ast { u with is_transition_function := false }
        [⟨sp, PStatement.Become ⟨esp, PExpr.Int i⟩⟩]
      = .error (LangErrorMsg.BecomeInHelperFunction.with_span sp) ∧
    UserFunction.build_statement_block_ast { u with is_transition_function := false }
        [⟨sp, PStatement.Return ⟨esp, PExpr.Int i⟩⟩]
      = .ok ([⟨u.statements.length⟩],
          { u with
            is_transition_function := false
            expressions := u.expressions ++ [⟨esp, Func.Int i, [], Ty.Int⟩]
            statements := u.statements ++ [Statement.Return sp ⟨u.expressions.length⟩] }) := by
  refine ⟨?_, ?_, ?_, ?_, ?_⟩ <;>
    simp [UserFunction.build_statement_block_ast, UserFunction.build_expression_ast,
      UserFunction.finish_expr, Expr.try_new, Func.return_ty, UserFunction.add_expr,
      UserFunction.add_statement, Return_try_new, Bind.bind, Except.bind,
      List.mapM, List.mapM.loop, pure, Except.pure]

/-! ## C6: compound assignments desugar to plain assignments -/

/-- C6: building `x op= e` is identical, state and result, to building
the plain assignment `x = x op e` whose value expression is the binary
operation on a fresh identifier-read of `x` (with the spans the source
desugaring uses); and concretely, for `x` bound to `Int`, `x += i`
appends the identifier-read node, the literal node and the
binary-operation node referencing both, and binds the assignment to the
binary-operation node. -/
theorem compound_assignment_desugaring (u : UserFunction) (sp vsp esp : Span)
    (x : String) (op : OperatorToken) (e : Spanned PExpr) (i : Int) :
    UserFunction.build_statement_block_ast u
        [⟨sp, PStatement.SetVar ⟨vsp, PExpr.Ident x⟩ (some op) e⟩]
      = UserFunction.build_statement_block_ast u
        [⟨sp, PStatement.SetVar ⟨vsp, PExpr.Ident x⟩ none
            ⟨sp, PExpr.BinaryOp ⟨vsp, PExpr.Ident x⟩ op e⟩⟩] ∧
    UserFunction.build_statement_block_ast { u with vars := (x, Ty.Int) :: u.vars }
        [⟨sp, PStatement.SetVar ⟨vsp, PExpr.Ident x⟩ (some OperatorToken.Plus)
            ⟨esp, PExpr.Int i⟩⟩]
      = .ok ([⟨u.statements.length⟩],
          { u with
            vars := (x, Ty.Int) :: u.vars
            expressions := u.expressions ++
              [⟨vsp, Func.GetVar x Ty.Int, [], Ty.Int⟩,
               ⟨esp, Func.Int i, [], Ty.Int⟩,
               ⟨sp, Func.BinaryIntOp OperatorToken.Plus,
                 [⟨u.expressions.length⟩, ⟨u.expressions.length + 1⟩], Ty.Int⟩]
            statements := u.statements ++
              [Statement.SetVar sp x ⟨u.expressions.length + 2⟩] }) := by
  constructor
  · rw [UserFunction.build_statement_block_ast, UserFunction.build_statement_block_ast]
  · simp [UserFunction.build_statement_block_ast, UserFunction.build_expression_ast,
      UserFunction.finish_expr, Expr.try_new, Func.return_ty, UserFunction.add_expr,
      UserFunction.add_statement, GetVar_try_new, UserFunction.try_get_var,
      SetVar_try_new, UserFunction.get_or_create_var, List.lookup,
      Bind.bind, Except.bind, List.mapM, List.mapM.loop, pure, Except.pure,
      List.getElem?_append_right, List.getElem_append_right, Nat.sub_self,
      Nat.add_sub_cancel_left]

/-! ## C1: error-return encoding round trip -/

/-- The bits of `k ||| 2 ^ n`. -/
theorem lor_two_pow_testBit (k n i : Nat) :
    (k ||| 2 ^ n).testBit i = (k.testBit i || decide (n = i)) := by
  rw [Nat.testBit_or, Nat.testBit_two_pow]

/-- C1: `build_return_error` sets bit 63 and places the error-point
index in the remaining bits: decoding the encoded value of any index
representable in 63 bits yields `(is_error = true, index)`, and decoding
any in-range result value (top bit clear) yields `(is_error = false, value)`. -/
theorem build_return_error_roundtrip (k v : Nat) (hk : k < 2 ^ 63)
    (hv : v < 2 ^ 63) :
    decode_return (build_return_error_value k) = (true, k) ∧
    decode_return v = (false, v) := by
  have h63 : (1 : Nat) <<< 63 = 2 ^ 63 := by
    rw [Nat.shiftLeft_eq, one_mul]
  constructor
  · rw [decode_return, build_return_error_value, h63]
    refine Prod.ext ?_ ?_
    · show (k ||| 2 ^ 63).testBit 63 = true
      rw [lor_two_pow_testBit]
      simp
    · show (k ||| 2 ^ 63) % 2 ^ 63 = k
      apply Nat.eq_of_testBit_eq
      intro i
      rw [Nat.testBit_mod_two_pow, lor_two_pow_testBit]
      by_cases hi : i < 63
      · simp [hi, Nat.ne_of_gt hi]
      · have hki : k.testBit i = false :=
          Nat.testBit_lt_two_pow
            (lt_of_lt_of_le hk (Nat.pow_le_pow_right (by norm_num) (le_of_not_lt hi)))
        simp [hi, hki]
  · rw [decode_return]
    refine Prod.ext ?_ ?_
    · show v.testBit 63 = false
      exact Nat.testBit_lt_two_pow hv
    · show v % 2 ^ 63 = v
      exact Nat.mod_eq_of_lt hv

/-- Witness for C1 at the concrete error index 5 and result value 7. -/
theorem build_return_error_roundtrip_witness :
    decode_return (build_return_error_value 5) = (true, 5) ∧
    decode_return 7 = (false, 7) :=
  build_return_error_roundtrip 5 7 (by decide) (by decide)

/-! ## C2: the two-stage division guard -/

/-- C2: executing the code generated by `build_div_check` (with the
callbacks trapping on distinct error points): a zero denominator
returns the div-by-zero error without ever reaching the overflow
check; a nonzero denominator with `lhs` the minimum value pattern and
`rhs` the all-ones pattern of `-1` returns the overflow error; in every
other case neither callback fires and control falls through to the open
merge block, on which the caller performs the division. -/
theorem build_div_check_exec_spec (w lhs rhs err_overflow err_div_by_zero : Nat) :
    div_check_exec w lhs rhs err_overflow err_div_by_zero = some (
      if rhs = 0 then ExecResult.returned (build_return_error_value err_div_by_zero)
      else if lhs = get_min_int_value w ∧ rhs = 2 ^ w - 1 then
        ExecResult.returned (build_return_error_value err_overflow)
      else ExecResult.fell_through 3) := by
  by_cases h1 : rhs = 0
  · have hb1 : (rhs == 0) = true := by simp [h1]
    rw [if_pos h1]
    simp [div_check_exec, Compiler.build_div_check, Compiler.build_conditional,
      Compiler.append_basic_block, Compiler.build_terminator, Compiler.position_at_end,
      Compiler.needs_terminator, Compiler.build_return_error, entry_compiler,
      ArmAction.build, natOfBool, listModify, Bind.bind, Except.bind, pure, Except.pure,
      hb1, run, switch_target]
  · have hb1 : (rhs == 0) = false := by simp [h1]
    rw [if_neg h1]
    by_cases h23 : lhs = get_min_int_value w ∧ rhs = 2 ^ w - 1
    · have hb2 : (lhs == get_min_int_value w) = true := by simp [h23.1]
      have hb3 : (rhs == 2 ^ w - 1) = true := by simp [h23.2]
      rw [if_pos h23]
      simp [div_check_exec, Compiler.build_div_check, Compiler.build_conditional,
        Compiler.append_basic_block, Compiler.build_terminator, Compiler.position_at_end,
        Compiler.needs_terminator, Compiler.build_return_error, entry_compiler,
        ArmAction.build, natOfBool, listModify, Bind.bind, Except.bind, pure, Except.pure,
        hb1, hb2, hb3, run, switch_target]
    · rw [if_neg h23]
      by_cases h2 : lhs = get_min_int_value w
      · have h3 : ¬rhs = 2 ^ w - 1 := fun hc => h23 ⟨h2, hc⟩
        have hb2 : (lhs == get_min_int_value w) = true := by simp [h2]
        have hb3 : (rhs == 2 ^ w - 1) = false := by simp [h3]
        simp [div_check_exec, Compiler.build_div_check, Compiler.build_conditional,
          Compiler.append_basic_block, Compiler.build_terminator, Compiler.position_at_end,
          Compiler.needs_terminator, Compiler.build_return_error, entry_compiler,
          ArmAction.build, natOfBool, listModify, Bind.bind, Except.bind, pure, Except.pure,
          hb1, hb2, hb3, run, switch_target]
      · have hb2 : (lhs == get_min_int_value w) = false := by simp [h2]
        simp [div_check_exec, Compiler.build_div_check, Compiler.build_conditional,
          Compiler.append_basic_block, Compiler.build_terminator, Compiler.position_at_end,
          Compiler.needs_terminator, Compiler.build_return_error, entry_compiler,
          ArmAction.build, natOfBool, listModify, Bind.bind, Except.bind, pure, Except.pure,
          hb1, hb2, run, switch_target]

/-! ## C3: checked integer arithmetic -/

/-- The add-with-overflow intrinsic on `MAX_INT` and `1` (for any width
of at least 2, written `w + 2`): wrapped result `2 ^ (w + 1)` and the
overflow flag set. -/
theorem sadd_max_overflow (w : Nat) :
    sadd_with_overflow (w + 2) (2 ^ (w + 1) - 1) 1 = (2 ^ (w + 1), true) := by
  have hp : (1 : Nat) ≤ 2 ^ (w + 1) := Nat.one_le_two_pow
  have h1 : 2 ^ (w + 1) - 1 < 2 ^ (w + 2 - 1) := by
    simpa using Nat.sub_lt (Nat.pos_of_ne_zero (by positivity)) one_pos
  have h2 : 1 < 2 ^ (w + 2 - 1) := by
    have h21 : (2 : Nat) ^ 1 ≤ 2 ^ (w + 1) := Nat.pow_le_pow_right (by norm_num) (by omega)
    simpa using lt_of_lt_of_le (by norm_num) h21
  unfold sadd_with_overflow
  refine Prod.ext ?_ ?_
  · show (2 ^ (w + 1) - 1 + 1) % 2 ^ (w + 2) = 2 ^ (w + 1)
    rw [Nat.sub_add_cancel hp]
    exact Nat.mod_eq_of_lt (Nat.pow_lt_pow_right (by norm_num) (by omega))
  · show decide _ = true
    rw [decide_eq_true_iff]
    right
    rw [toSigned, toSigned, if_pos h1, if_pos h2]
    have hc : ((2 ^ (w + 1) - 1 : Nat) : Int) = 2 ^ (w + 1) - 1 := by
      push_cast [hp]
      ring
    rw [hc]
    have he : (2 : Int) ^ (w + 2 - 1) = 2 ^ (w + 1) := by norm_num
    rw [he]
    omega

/-- C3: `build_checked_int_arithmetic` returns the result value the
intrinsic computes, and the generated code branches on the overflow
flag: with the flag set execution returns the encoded overflow error,
with it clear execution falls through to the open merge block; in
particular for `lhs = MAX_INT`, `rhs = 1` under add-with-overflow the
generated function returns the encoded overflow error, not the wrapped
numeric result. -/
theorem build_checked_int_arithmetic_spec (intrinsic : Nat → Nat → Nat × Bool)
    (lhs rhs err_overflow w : Nat) :
    checked_int_arithmetic_exec intrinsic lhs rhs err_overflow
      = some ((intrinsic lhs rhs).1,
          if (intrinsic lhs rhs).2 then
            ExecResult.returned (build_return_error_value err_overflow)
          else ExecResult.fell_through 3) ∧
    checked_int_arithmetic_exec (sadd_with_overflow (w + 2)) (2 ^ (w + 1) - 1) 1
        err_overflow
      = some (2 ^ (w + 1),
          ExecResult.returned (build_return_error_value err_overflow)) := by
  have main : ∀ (f : Nat → Nat → Nat × Bool) (a b : Nat),
      checked_int_arithmetic_exec f a b err_overflow
        = some ((f a b).1,
            if (f a b).2 then ExecResult.returned (build_return_error_value err_overflow)
            else ExecResult.fell_through 3) := by
    intro f a b
    rcases hio : f a b with ⟨v, flag⟩
    cases flag <;>
      simp [checked_int_arithmetic_exec, Compiler.build_checked_int_arithmetic,
        Compiler.build_conditional, Compiler.append_basic_block, Compiler.build_terminator,
        Compiler.position_at_end, Compiler.needs_terminator, Compiler.build_return_error,
        entry_compiler, ArmAction.build, natOfBool, listModify, Bind.bind, Except.bind,
        pure, Except.pure, hio, run, switch_target]
  refine ⟨main intrinsic lhs rhs, ?_⟩
  rw [main (sadd_with_overflow (w + 2)) (2 ^ (w + 1) - 1) 1, sadd_max_overflow]
  simp

/-! ## C4: build_conditional -/

/-- `listModify` skips over a prefix, with the index given as an offset
past the length of the prefix. -/
theorem listModify_append_add (f : α → α) (xs ys : List α) (k : Nat) :
    listModify f (xs.length + k) (xs ++ ys) = xs ++ listModify f k ys := by
  induction xs with
  | nil => simp
  | cons x xs ih => simpa [listModify, Nat.succ_add] using ih

/-- C4: starting from any cursor position on an unterminated block,
`build_conditional` appends exactly the three blocks ifTrue, ifFalse
and endIf, terminates the cursor block with a switch sending the value
0 to the false arm and everything else to the true arm, runs each arm
callback at its own block (the trapping return lands in that block),
appends the branch to the merge block exactly when the arm left its
block unterminated, and leaves the cursor on the merge block. -/
theorem build_conditional_spec (pre post : List BBlock) (nm : String) (cond : Nat)
    (a b : ArmAction) :
    Compiler.build_conditional ⟨pre ++ ⟨nm, none⟩ :: post, pre.length⟩ cond
        a.build b.build
      = .ok ⟨pre ++
          ⟨nm, some (Term.switch cond (pre.length + post.length + 1)
            [(0, pre.length + post.length + 2)])⟩ ::
          (post ++
            [⟨"ifTrue", arm_result_term a (pre.length + post.length + 3)⟩,
             ⟨"ifFalse", arm_result_term b (pre.length + post.length + 3)⟩,
             ⟨"endIf", none⟩]),
          pre.length + post.length + 3⟩ := by
  cases a <;> cases b <;>
    simp [Compiler.build_conditional, Compiler.append_basic_block,
      Compiler.build_terminator, Compiler.position_at_end, Compiler.needs_terminator,
      Compiler.build_return_error, ArmAction.build, arm_result_term,
      Bind.bind, Except.bind, pure, Except.pure, listModify,
      listModify_append_cons, listModify_append_add, get?_append_cons_length,
      List.getElem?_append_right, List.getElem_append_right,
      List.getElem_cons_succ, List.getElem_cons_zero,
      Nat.add_sub_cancel_left, Nat.sub_self,
      List.append_assoc, Nat.add_assoc]
